import Mathlib

/-!
Verification of the service locator of `sagikazarmark/go-service-locator`,
as generated in `test/service_locator_gen.go`.

The generated code consists of a `ServiceRegistry` holding, per service slot,
a memoized instance and a registered factory (unnamed slots `ServiceA` and
`ServiceC` hold a single nillable instance and a single nillable factory;
the named slot family `ServiceB` holds a `map[string]ServiceB` of instances
and a `map[string]NamedServiceFactory` of factories), plus a per-external-call
`serviceLocationContext` carrying a visited flag per slot and an ordered
`dependencyGraph` of visited slot labels.

The three generated resolution functions `getServiceA`, `getServiceB` and
`getServiceC` share one algorithm, transcribed here as `resolve`:
read instance and factory under the lock; return the instance if the
presence check passes; otherwise fail with a `CircularDependencyError` if the
slot is already visited in the context; otherwise mark the slot visited
(appending its label to the dependency graph); fail if no factory is
registered; otherwise invoke the factory with the context as locator handle,
propagate its error unchanged, and on success store the instance and return it.

Factories are user Go code; they are embedded as programs (`FProg`) that can
return a freshly allocated instance, return nil, fail with an error, or
request another slot through the locator handle they were given, continuing
with the received instance and propagating a failed request's error — the
shape of every factory in the repository's tests. Instance identity (Go
pointer/interface identity) is modelled by tagging each freshly constructed
instance with a counter drawn from the global state, and factory invocations
are recorded in an invocation log so that "the factory ran at most once"
is a statement about the log.

The model is single-threaded: the Go mutexes make each lock-protected
section atomic, and a sequential execution is exactly the interleaving-free
case the functional claims quantify over.
-/

namespace SvcLoc

/-- A Go interface value of a service type: either `nil` or a concrete
instance, identified by the allocation counter it was constructed with. -/
inductive Val where
  | nil : Val
  | mk (id : Nat) : Val
deriving DecidableEq

/-- A Go `error` value as observed by the locator: a plain string error
(`errors.New` / `fmt.Errorf`, used for the not-registered failures), a
structured `CircularDependencyError` with its three fields, or an opaque
application-defined error returned by a factory. -/
inductive GoErr where
  | strErr (msg : String) : GoErr
  | circular (serviceType : String) (serviceName : String)
      (dependencyGraph : List String) : GoErr
  | userErr (id : Nat) : GoErr
deriving DecidableEq

/-- A service slot of the generated registry: the unnamed slots `ServiceA`
and `ServiceC`, and the named slot family `ServiceB` keyed by a name. -/
inductive Slot where
  | A : Slot
  | B (name : String) : Slot
  | C : Slot
deriving DecidableEq

/-- A factory body: return a given instance (possibly `Val.nil`), return a
freshly allocated instance, fail with an error, or request another slot from
the locator handle and continue with the instance received, propagating the
error if the request fails. -/
inductive FProg where
  | ret (v : Val) : FProg
  | retFresh : FProg
  | fail (e : GoErr) : FProg
  | get (s : Slot) (k : Val → FProg) : FProg

/-- The `ServiceType` field used when constructing a `CircularDependencyError`
for this slot (`"ServiceA"`, `"ServiceB"`, `"ServiceC"`). -/
def Slot.serviceType : Slot → String
  | .A => "ServiceA"
  | .B _ => "ServiceB"
  | .C => "ServiceC"

/-- The `ServiceName` field used when constructing a `CircularDependencyError`
for this slot: empty for unnamed slots, the name for `ServiceB`. -/
def Slot.serviceName : Slot → String
  | .A => ""
  | .B n => n
  | .C => ""

/-- The label appended to `ctx.dependencyGraph` by `markVisitedServiceX`:
`"ServiceA"`, `"ServiceB:" + name`, `"ServiceC"`. -/
def Slot.label : Slot → String
  | .A => "ServiceA"
  | .B n => "ServiceB:" ++ n
  | .C => "ServiceC"

/-- The message of the error returned when no factory is registered:
`errors.New("no factory registered for ServiceA")` etc., and
`fmt.Errorf("no factory registered for ServiceB with name '%s'", name)`. -/
def notRegisteredMsg : Slot → String
  | .A => "no factory registered for ServiceA"
  | .B n => "no factory registered for ServiceB with name '" ++ n ++ "'"
  | .C => "no factory registered for ServiceC"

/-- The `ServiceRegistry` state: one nillable instance and factory for each
unnamed slot, and association lists (newest binding first, mirroring Go map
overwrite-on-assign) for the named `ServiceB` family. `NewServiceRegistry`
is the default value: nil instances, no factories, empty maps. -/
structure Registry where
  instanceServiceA : Val := .nil
  factoryServiceA : Option FProg := none
  instancesServiceB : List (String × Val) := []
  factoriesServiceB : List (String × FProg) := []
  instanceServiceC : Val := .nil
  factoryServiceC : Option FProg := none

/-- The `serviceLocationContext` state: the ordered dependency graph plus
the visited markers (`visitedServiceA`, `visitedServiceB` map,
`visitedServiceC`). `newServiceLocationContext` is the default value. -/
structure Ctx where
  dependencyGraph : List String := []
  visitedServiceA : Bool := false
  visitedServiceB : List String := []
  visitedServiceC : Bool := false

/-- Global mutable state threaded through a run: the registry, the counter
handing out identities of freshly constructed instances, and the log of
factory invocations (one entry per slot whose factory was called). -/
structure GState where
  reg : Registry := {}
  fresh : Nat := 0
  invocations : List Slot := []

/-- The instance read for a slot at the start of `getServiceX`: the field
for unnamed slots, the map lookup (zero value `nil` when absent) for
`ServiceB`. -/
def Registry.instanceOf (r : Registry) : Slot → Val
  | .A => r.instanceServiceA
  | .B n => (r.instancesServiceB.lookup n).getD .nil
  | .C => r.instanceServiceC

/-- The `instanceOk` presence check of `getServiceX`: `instance != nil` for
the unnamed slots, map-key presence for `ServiceB`. -/
def Registry.present (r : Registry) : Slot → Bool
  | .A => r.instanceServiceA != Val.nil
  | .B n => (r.instancesServiceB.lookup n).isSome
  | .C => r.instanceServiceC != Val.nil

/-- The factory read for a slot: `factoryOk` is `isSome` of this. -/
def Registry.factoryOf (r : Registry) : Slot → Option FProg
  | .A => r.factoryServiceA
  | .B n => r.factoriesServiceB.lookup n
  | .C => r.factoryServiceC

/-- Storing a successfully constructed instance (`r.instanceServiceX =
instance` / `r.instancesServiceB[name] = instance`). -/
def Registry.store (r : Registry) (s : Slot) (v : Val) : Registry :=
  match s with
  | .A => { r with instanceServiceA := v }
  | .B n => { r with instancesServiceB := (n, v) :: r.instancesServiceB }
  | .C => { r with instanceServiceC := v }

/-- `RegisterServiceX`: store/overwrite the factory for the slot. -/
def Registry.register (r : Registry) (s : Slot) (p : FProg) : Registry :=
  match s with
  | .A => { r with factoryServiceA := some p }
  | .B n => { r with factoriesServiceB := (n, p) :: r.factoriesServiceB }
  | .C => { r with factoryServiceC := some p }

/-- `ctx.isVisitedServiceX`. -/
def Ctx.isVisited (c : Ctx) : Slot → Bool
  | .A => c.visitedServiceA
  | .B n => c.visitedServiceB.contains n
  | .C => c.visitedServiceC

/-- `ctx.markVisitedServiceX`: set the visited marker and append the slot's
label to the dependency graph. -/
def Ctx.markVisited (c : Ctx) : Slot → Ctx
  | .A =>
    { c with
      visitedServiceA := true
      dependencyGraph := c.dependencyGraph ++ ["ServiceA"] }
  | .B n =>
    { c with
      visitedServiceB := n :: c.visitedServiceB
      dependencyGraph := c.dependencyGraph ++ ["ServiceB:" ++ n] }
  | .C =>
    { c with
      visitedServiceC := true
      dependencyGraph := c.dependencyGraph ++ ["ServiceC"] }

/-- Run a factory body against a resolution function (the locator handle):
`ret`/`retFresh`/`fail` terminate, `get` performs a nested resolution through
the same context, propagates its error, and otherwise continues with the
received instance. -/
def runFactory (res : Slot → GState → Ctx → Except GoErr Val × GState × Ctx) :
    FProg → GState → Ctx → Except GoErr Val × GState × Ctx
  | .ret v, g, c => (.ok v, g, c)
  | .retFresh, g, c => (.ok (.mk g.fresh), { g with fresh := g.fresh + 1 }, c)
  | .fail e, g, c => (.error e, g, c)
  | .get s k, g, c =>
    match res s g c with
    | (.error e, g', c') => (.error e, g', c')
    | (.ok v, g', c') => runFactory res (k v) g' c'

/-- The shared body of `getServiceA` / `getServiceB` / `getServiceC`:
read instance and factory; fast-path return if the presence check passes;
circular-dependency error (carrying the current dependency graph) if the
slot is already visited; mark visited; not-registered error if no factory;
invoke the factory (logging the invocation) with the same context;
propagate a factory error unchanged; store and return the instance on
success. Fuel bounds the recursion depth; the Go code has no such bound
and would overflow the stack where the model runs out of fuel. -/
def resolve : Nat → Slot → GState → Ctx → Except GoErr Val × GState × Ctx
  | 0, _, g, c => (.error (.strErr "out of fuel"), g, c)
  | fuel + 1, s, g, c =>
    let inst := g.reg.instanceOf s
    if g.reg.present s then
      (.ok inst, g, c)
    else if c.isVisited s then
      (.error (.circular s.serviceType s.serviceName c.dependencyGraph), g, c)
    else
      let c1 := c.markVisited s
      match g.reg.factoryOf s with
      | none => (.error (.strErr (notRegisteredMsg s)), g, c1)
      | some p =>
        let g1 : GState := { g with invocations := g.invocations ++ [s] }
        match runFactory (fun t => resolve fuel t) p g1 c1 with
        | (.error e, g2, c2) => (.error e, g2, c2)
        | (.ok v, g2, c2) => (.ok v, { g2 with reg := g2.reg.store s v }, c2)

/-- `GetServiceX` on the registry: resolve through a fresh
`serviceLocationContext`, which is discarded when the call returns. -/
def getTop (fuel : Nat) (s : Slot) (g : GState) : Except GoErr Val × GState :=
  match resolve fuel s g {} with
  | (r, g', _) => (r, g')

/-- An operation on the registry's public surface: a registration or a
top-level get. -/
inductive Op where
  | reg (s : Slot) (p : FProg) : Op
  | getO (s : Slot) : Op

/-- Run one public operation. -/
def runOp (fuel : Nat) (g : GState) : Op → GState
  | .reg s p => { g with reg := g.reg.register s p }
  | .getO s => (getTop fuel s g).2

/-- Run a sequence of public operations. -/
def runOps (fuel : Nat) (g : GState) : List Op → GState
  | [] => g
  | op :: ops => runOps fuel (runOp fuel g op) ops

/-- A factory body never directly returns a fabricated
`CircularDependencyError` of its own (it may still propagate one it
received from a `get`, which `FProg.get` does implicitly). Every factory
in the repository satisfies this. -/
def FProg.noFab : FProg → Prop
  | .ret _ => True
  | .retFresh => True
  | .fail e => ∀ t n p, e ≠ .circular t n p
  | .get _ k => ∀ v, (k v).noFab

/-- All factories registered in the registry satisfy `FProg.noFab`. -/
def Registry.NoFab (r : Registry) : Prop :=
  ∀ s p, r.factoryOf s = some p → p.noFab

/-- Whether storing `v` for `s` makes the slot's presence check pass on the
next read: always for the named `ServiceB` slots (map-key presence), and
exactly when `v` is non-nil for the unnamed slots (`instance != nil`). -/
def memoizable : Slot → Val → Bool
  | .B _, _ => true
  | _, v => v != Val.nil

/-- Relation between the state `(g, c)` at entry to a resolution step (a
`resolve` call or a factory run) and its output `out = (result, g', c')`,
capturing every frame/invariant fact the claims rest on:
registration state is untouched; memoized presence only grows and memoized
cells are frozen; the cells of slots already visited in `c` are frozen
entirely; the visited set only grows; the dependency graph only grows by
appending; the invocation log grows by a duplicate-free block of slots that
were unmemoized and unvisited at entry and are visited on exit; and (absent
fabricated cycle errors) any returned `CircularDependencyError` carries a
dependency graph extending the entry graph and extended by the exit graph. -/
structure StepOk (g : GState) (c : Ctx)
    (out : Except GoErr Val × GState × Ctx) : Prop where
  factories : ∀ u, out.2.1.reg.factoryOf u = g.reg.factoryOf u
  presentMono : ∀ u, g.reg.present u = true → out.2.1.reg.present u = true
  memoFrozen : ∀ u, g.reg.present u = true →
    out.2.1.reg.instanceOf u = g.reg.instanceOf u
  visitedFrozen : ∀ u, c.isVisited u = true →
    out.2.1.reg.instanceOf u = g.reg.instanceOf u ∧
      out.2.1.reg.present u = g.reg.present u
  visitedMono : ∀ u, c.isVisited u = true → out.2.2.isVisited u = true
  graphMono : c.dependencyGraph <+: out.2.2.dependencyGraph
  invocs : ∃ Δ, out.2.1.invocations = g.invocations ++ Δ ∧ Δ.Nodup ∧
    ∀ u ∈ Δ, g.reg.present u = false ∧ c.isVisited u = false ∧
      out.2.2.isVisited u = true
  circOk : g.reg.NoFab → ∀ t n p, out.1 = .error (.circular t n p) →
    c.dependencyGraph <+: p ∧ p <+: out.2.2.dependencyGraph

/-! ### Concrete registries mirroring the repository's tests -/

/-- The symmetric cycle of `TestCircularDependencyDetection`: `ServiceA`'s
factory requests `ServiceB:"service"`, whose factory requests `ServiceA`.
No instance is memoized. -/
def gPair : GState :=
  { reg := { factoryServiceA := some (.get (.B "service") (fun _ => .retFresh))
             factoriesServiceB := [("service", .get .A (fun _ => .retFresh))] } }

/-- A branching cycle: `ServiceA`'s factory requests `ServiceB:"service"`,
whose factory first successfully resolves `ServiceC` and then requests
`ServiceA` again. -/
def gBranch : GState :=
  { reg := { factoryServiceA := some (.get (.B "service") (fun _ => .retFresh))
             factoriesServiceB :=
               [("service", .get .C (fun _ => .get .A (fun _ => .retFresh)))]
             factoryServiceC := some .retFresh } }

/-- A registry whose `ServiceA` factory succeeds with a nil instance. -/
def gNilA : GState := { reg := { factoryServiceA := some (.ret .nil) } }

/-- A registry whose `ServiceA` factory constructs a fresh instance. -/
def gFreshA : GState := { reg := { factoryServiceA := some .retFresh } }

/-- A registry whose `ServiceA` factory fails with a domain error, as in
`TestServiceFactoryFailed`. -/
def gFailA : GState := { reg := { factoryServiceA := some (.fail (.userErr 42)) } }

/-- A registry with an instance already memoized for `ServiceA`. -/
def gMemoA : GState := { reg := { instanceServiceA := .mk 7 } }

/-! ### Basic lemmas about the registry and context operations -/

theorem factoryOf_store (r : Registry) (s : Slot) (v : Val) (u : Slot) :
    (r.store s v).factoryOf u = r.factoryOf u := by
  cases s <;> cases u <;> simp [Registry.store, Registry.factoryOf]

theorem instanceOf_store_self (r : Registry) (s : Slot) (v : Val) :
    (r.store s v).instanceOf s = v := by
  cases s <;> simp [Registry.store, Registry.instanceOf, List.lookup_cons]

theorem present_store_self (r : Registry) (s : Slot) (v : Val) :
    (r.store s v).present s = memoizable s v := by
  cases s <;> simp [Registry.store, Registry.present, memoizable, List.lookup_cons]

theorem instanceOf_store_ne (r : Registry) {s u : Slot} (v : Val) (h : u ≠ s) :
    (r.store s v).instanceOf u = r.instanceOf u := by
  cases s with
  | A => cases u <;> simp_all [Registry.store, Registry.instanceOf]
  | C => cases u <;> simp_all [Registry.store, Registry.instanceOf]
  | B n =>
    cases u with
    | A => simp [Registry.store, Registry.instanceOf]
    | C => simp [Registry.store, Registry.instanceOf]
    | B m =>
      have hm : m ≠ n := fun hh => h (by rw [hh])
      simp [Registry.store, Registry.instanceOf, List.lookup_cons,
        beq_eq_false_iff_ne.mpr hm]

theorem present_store_ne (r : Registry) {s u : Slot} (v : Val) (h : u ≠ s) :
    (r.store s v).present u = r.present u := by
  cases s with
  | A => cases u <;> simp_all [Registry.store, Registry.present]
  | C => cases u <;> simp_all [Registry.store, Registry.present]
  | B n =>
    cases u with
    | A => simp [Registry.store, Registry.present]
    | C => simp [Registry.store, Registry.present]
    | B m =>
      have hm : m ≠ n := fun hh => h (by rw [hh])
      simp [Registry.store, Registry.present, List.lookup_cons,
        beq_eq_false_iff_ne.mpr hm]

theorem factoryOf_register_self (r : Registry) (s : Slot) (p : FProg) :
    (r.register s p).factoryOf s = some p := by
  cases s <;> simp [Registry.register, Registry.factoryOf, List.lookup_cons]

theorem instanceOf_register (r : Registry) (s : Slot) (p : FProg) (u : Slot) :
    (r.register s p).instanceOf u = r.instanceOf u := by
  cases s <;> cases u <;> simp [Registry.register, Registry.instanceOf]

theorem present_register (r : Registry) (s : Slot) (p : FProg) (u : Slot) :
    (r.register s p).present u = r.present u := by
  cases s <;> cases u <;> simp [Registry.register, Registry.present]

theorem memoizable_of_present (r : Registry) (s : Slot) (h : r.present s = true) :
    memoizable s (r.instanceOf s) = true := by
  cases s <;> simp_all [Registry.present, Registry.instanceOf, memoizable]

theorem isVisited_markVisited_self (c : Ctx) (s : Slot) :
    (c.markVisited s).isVisited s = true := by
  cases s <;> simp [Ctx.markVisited, Ctx.isVisited]

theorem isVisited_markVisited_of (c : Ctx) {s u : Slot}
    (h : c.isVisited u = true) : (c.markVisited s).isVisited u = true := by
  cases s <;> cases u <;> simp_all [Ctx.markVisited, Ctx.isVisited]

theorem dependencyGraph_markVisited (c : Ctx) (s : Slot) :
    (c.markVisited s).dependencyGraph = c.dependencyGraph ++ [s.label] := by
  cases s <;> simp [Ctx.markVisited, Slot.label]

theorem noFab_iff_of_factoryOf_eq {r r' : Registry}
    (h : ∀ u, r'.factoryOf u = r.factoryOf u) : r'.NoFab ↔ r.NoFab := by
  constructor <;> intro hn s p hp <;> apply hn s p
  · rw [h]; exact hp
  · rw [← h]; exact hp

/-! ### The four branches of `resolve` -/

theorem resolve_present {s : Slot} {g : GState} (fuel : Nat) (c : Ctx)
    (hp : g.reg.present s = true) :
    resolve (fuel + 1) s g c = (.ok (g.reg.instanceOf s), g, c) := by
  simp [resolve, hp]

theorem resolve_visited {s : Slot} {g : GState} {c : Ctx} (fuel : Nat)
    (hp : g.reg.present s = false) (hv : c.isVisited s = true) :
    resolve (fuel + 1) s g c =
      (.error (.circular s.serviceType s.serviceName c.dependencyGraph), g, c) := by
  simp [resolve, hp, hv]

theorem resolve_notRegistered {s : Slot} {g : GState} {c : Ctx} (fuel : Nat)
    (hp : g.reg.present s = false) (hv : c.isVisited s = false)
    (hf : g.reg.factoryOf s = none) :
    resolve (fuel + 1) s g c =
      (.error (.strErr (notRegisteredMsg s)), g, c.markVisited s) := by
  simp [resolve, hp, hv, hf]

theorem resolve_factory {s : Slot} {g : GState} {c : Ctx} {p : FProg} (fuel : Nat)
    (hp : g.reg.present s = false) (hv : c.isVisited s = false)
    (hf : g.reg.factoryOf s = some p) :
    resolve (fuel + 1) s g c =
      match runFactory (fun t => resolve fuel t) p
          { g with invocations := g.invocations ++ [s] } (c.markVisited s) with
      | (.error e, g2, c2) => (.error e, g2, c2)
      | (.ok v, g2, c2) => (.ok v, { g2 with reg := g2.reg.store s v }, c2) := by
  simp [resolve, hp, hv, hf]

/-! ### Combinators for `StepOk` -/

theorem StepOk.of_parts {g : GState} {c : Ctx} {g' : GState}
    (r : Except GoErr Val) (hreg : g'.reg = g.reg)
    (hinv : g'.invocations = g.invocations)
    (hr : g.reg.NoFab → ∀ t n p, r = .error (.circular t n p) →
      p = c.dependencyGraph) :
    StepOk g c (r, g', c) where
  factories u := by rw [hreg]
  presentMono u hu := by rw [hreg]; exact hu
  memoFrozen u _ := by rw [hreg]
  visitedFrozen u _ := by rw [hreg]; exact ⟨rfl, rfl⟩
  visitedMono u hu := hu
  graphMono := List.prefix_rfl
  invocs := ⟨[], by simp [hinv], List.nodup_nil, by simp⟩
  circOk hnf t n p hp := by
    rw [hr hnf t n p hp]; exact ⟨List.prefix_rfl, List.prefix_rfl⟩

theorem StepOk.comp {g : GState} {c : Ctx} {a : Except GoErr Val}
    {g1 : GState} {c1 : Ctx} {out : Except GoErr Val × GState × Ctx}
    (h1 : StepOk g c (a, g1, c1)) (h2 : StepOk g1 c1 out) : StepOk g c out where
  factories u := (h2.factories u).trans (h1.factories u)
  presentMono u hu := h2.presentMono u (h1.presentMono u hu)
  memoFrozen u hu :=
    (h2.memoFrozen u (h1.presentMono u hu)).trans (h1.memoFrozen u hu)
  visitedFrozen u hu :=
    ⟨((h2.visitedFrozen u (h1.visitedMono u hu)).1).trans
        (h1.visitedFrozen u hu).1,
      ((h2.visitedFrozen u (h1.visitedMono u hu)).2).trans
        (h1.visitedFrozen u hu).2⟩
  visitedMono u hu := h2.visitedMono u (h1.visitedMono u hu)
  graphMono := h1.graphMono.trans h2.graphMono
  invocs := by
    obtain ⟨d1, e1, n1, m1⟩ := h1.invocs
    obtain ⟨d2, e2, n2, m2⟩ := h2.invocs
    refine ⟨d1 ++ d2, by rw [e2, e1, List.append_assoc], ?_, ?_⟩
    · refine n1.append n2 ?_
      intro u hu1 hu2
      have hv1 : c1.isVisited u = true := (m1 u hu1).2.2
      have hv2 : c1.isVisited u = false := (m2 u hu2).2.1
      rw [hv1] at hv2
      exact absurd hv2 (by simp)
    · intro u hu
      rcases List.mem_append.mp hu with hu1 | hu2
      · exact ⟨(m1 u hu1).1, (m1 u hu1).2.1,
          h2.visitedMono u (m1 u hu1).2.2⟩
      · refine ⟨?_, ?_, (m2 u hu2).2.2⟩
        · cases hgu : g.reg.present u with
          | false => rfl
          | true =>
            have := h1.presentMono u hgu
            rw [(m2 u hu2).1] at this
            exact absurd this (by simp)
        · cases hcu : c.isVisited u with
          | false => rfl
          | true =>
            have := h1.visitedMono u hcu
            rw [(m2 u hu2).2.1] at this
            exact absurd this (by simp)
  circOk hnf t n p hp := by
    have hnf1 : g1.reg.NoFab :=
      (noFab_iff_of_factoryOf_eq h1.factories).mpr hnf
    have h := h2.circOk hnf1 t n p hp
    exact ⟨h1.graphMono.trans h.1, h.2⟩

theorem StepOk.mark {g : GState} {c : Ctx} (s : Slot) (r : Except GoErr Val)
    (hr : ∀ t n p, r ≠ .error (.circular t n p)) :
    StepOk g c (r, g, c.markVisited s) where
  factories _ := rfl
  presentMono _ hu := hu
  memoFrozen _ _ := rfl
  visitedFrozen _ _ := ⟨rfl, rfl⟩
  visitedMono _ hu := isVisited_markVisited_of c hu
  graphMono := by rw [dependencyGraph_markVisited]; exact List.prefix_append _ _
  invocs := ⟨[], by simp, List.nodup_nil, by simp⟩
  circOk _ t n p hp := absurd hp (hr t n p)

theorem stepOk_store {g : GState} {c : Ctx} {s : Slot} {v : Val}
    {g2 : GState} {c2 : Ctx} (h : StepOk g c (.ok v, g2, c2))
    (hp : g.reg.present s = false) (hv : c.isVisited s = false) :
    StepOk g c (.ok v, { g2 with reg := g2.reg.store s v }, c2) where
  factories u := (factoryOf_store g2.reg s v u).trans (h.factories u)
  presentMono u hu := by
    have hus : u ≠ s := fun he => by rw [he, hp] at hu; exact absurd hu (by simp)
    show (g2.reg.store s v).present u = true
    rw [present_store_ne g2.reg v hus]
    exact h.presentMono u hu
  memoFrozen u hu := by
    have hus : u ≠ s := fun he => by rw [he, hp] at hu; exact absurd hu (by simp)
    show (g2.reg.store s v).instanceOf u = g.reg.instanceOf u
    rw [instanceOf_store_ne g2.reg v hus]
    exact h.memoFrozen u hu
  visitedFrozen u hu := by
    have hus : u ≠ s := fun he => by rw [he, hv] at hu; exact absurd hu (by simp)
    refine ⟨?_, ?_⟩
    · show (g2.reg.store s v).instanceOf u = g.reg.instanceOf u
      rw [instanceOf_store_ne g2.reg v hus]
      exact (h.visitedFrozen u hu).1
    · show (g2.reg.store s v).present u = g.reg.present u
      rw [present_store_ne g2.reg v hus]
      exact (h.visitedFrozen u hu).2
  visitedMono := h.visitedMono
  graphMono := h.graphMono
  invocs := h.invocs
  circOk _ t n p hp := by simp at hp

theorem stepOk_runFactory
    (resFn : Slot → GState → Ctx → Except GoErr Val × GState × Ctx)
    (hres : ∀ s g c, StepOk g c (resFn s g c)) (p : FProg) :
    ∀ (g : GState) (c : Ctx), (g.reg.NoFab → p.noFab) →
      StepOk g c (runFactory resFn p g c) := by
  induction p with
  | ret v =>
    intro g c _
    exact StepOk.of_parts _ rfl rfl (by intro _ t n q h; simp at h)
  | retFresh =>
    intro g c _
    exact StepOk.of_parts _ rfl rfl (by intro _ t n q h; simp at h)
  | fail e =>
    intro g c hnf
    refine StepOk.of_parts _ rfl rfl ?_
    intro hn t n q h
    injection h with h2
    exact absurd h2 (hnf hn t n q)
  | get s k ih =>
    intro g c hnf
    have h1 := hres s g c
    show StepOk g c (runFactory resFn (.get s k) g c)
    rcases hout : resFn s g c with ⟨r1, g1, c1⟩
    rw [hout] at h1
    cases r1 with
    | error e =>
      have : runFactory resFn (.get s k) g c = (.error e, g1, c1) := by
        rw [runFactory, hout]
      rw [this]
      exact h1
    | ok v =>
      have : runFactory resFn (.get s k) g c = runFactory resFn (k v) g1 c1 := by
        rw [runFactory, hout]
      rw [this]
      have hnf1 : g1.reg.NoFab → (k v).noFab := fun h =>
        hnf ((noFab_iff_of_factoryOf_eq h1.factories).mp h) v
      exact h1.comp (ih v g1 c1 hnf1)

theorem stepOk_resolve (fuel : Nat) :
    ∀ (s : Slot) (g : GState) (c : Ctx), StepOk g c (resolve fuel s g c) := by
  induction fuel with
  | zero =>
    intro s g c
    exact StepOk.of_parts _ rfl rfl (by intro _ t n q h; simp [resolve] at h)
  | succ fuel ih =>
    intro s g c
    cases hp : g.reg.present s with
    | true =>
      rw [resolve_present fuel c hp]
      exact StepOk.of_parts _ rfl rfl (by intro _ t n q h; simp at h)
    | false =>
      cases hv : c.isVisited s with
      | true =>
        rw [resolve_visited fuel hp hv]
        refine StepOk.of_parts _ rfl rfl ?_
        intro _ t n q h
        injection h with h2
        injection h2 with _ _ h3
        exact h3.symm
      | false =>
        cases hf : g.reg.factoryOf s with
        | none =>
          rw [resolve_notRegistered fuel hp hv hf]
          exact StepOk.mark s _ (by intro t n q h; simp at h)
        | some p =>
          rw [resolve_factory fuel hp hv hf]
          have hpre : StepOk g c (Except.ok Val.nil,
              { g with invocations := g.invocations ++ [s] },
              c.markVisited s) := by
            refine ⟨fun _ => rfl, fun _ hu => hu, fun _ _ => rfl,
              fun _ _ => ⟨rfl, rfl⟩, fun u hu => isVisited_markVisited_of c hu,
              ?_, ⟨[s], rfl, List.nodup_singleton s, ?_⟩, ?_⟩
            · rw [dependencyGraph_markVisited]; exact List.prefix_append _ _
            · intro u hu
              rw [List.mem_singleton.mp hu]
              exact ⟨hp, hv, isVisited_markVisited_self c s⟩
            · intro _ t n q h; simp at h
          have hnf1 : ({ g with invocations := g.invocations ++ [s] } :
              GState).reg.NoFab → p.noFab := fun h => h s p hf
          have hrun := stepOk_runFactory (fun t => resolve fuel t) ih p
            { g with invocations := g.invocations ++ [s] } (c.markVisited s) hnf1
          rcases hout : runFactory (fun t => resolve fuel t) p
            { g with invocations := g.invocations ++ [s] }
            (c.markVisited s) with ⟨rF, g2, c2⟩
          rw [hout] at hrun
          cases rF with
          | error e => exact hpre.comp hrun
          | ok v => exact stepOk_store (hpre.comp hrun) hp hv

/-! ### Derived facts about single resolutions -/

theorem resolve_ok_stores {fuel : Nat} {s : Slot} {g : GState} {c : Ctx}
    {v : Val} {g' : GState} {c' : Ctx}
    (h : resolve (fuel + 1) s g c = (.ok v, g', c')) :
    g'.reg.instanceOf s = v ∧ g'.reg.present s = memoizable s v := by
  cases hp : g.reg.present s with
  | true =>
    rw [resolve_present fuel c hp] at h
    simp only [Prod.mk.injEq, Except.ok.injEq] at h
    obtain ⟨h1, h2, h3⟩ := h
    subst h1 h2
    exact ⟨rfl, (memoizable_of_present g.reg s hp).symm ▸ hp⟩
  | false =>
    cases hv : c.isVisited s with
    | true =>
      rw [resolve_visited fuel hp hv] at h
      simp at h
    | false =>
      cases hf : g.reg.factoryOf s with
      | none =>
        rw [resolve_notRegistered fuel hp hv hf] at h
        simp at h
      | some p =>
        rw [resolve_factory fuel hp hv hf] at h
        rcases hout : runFactory (fun t => resolve fuel t) p
          { g with invocations := g.invocations ++ [s] }
          (c.markVisited s) with ⟨rF, g2, c2⟩
        rw [hout] at h
        cases rF with
        | error e => simp at h
        | ok w =>
          simp only [Prod.mk.injEq, Except.ok.injEq] at h
          obtain ⟨h1, h2, h3⟩ := h
          subst h1 h2
          exact ⟨instanceOf_store_self g2.reg s _,
            present_store_self g2.reg s _⟩

theorem resolve_of_isVisited {fuel : Nat} {s : Slot} {g : GState} {c : Ctx}
    (hv : c.isVisited s = true) :
    resolve (fuel + 1) s g c = (.ok (g.reg.instanceOf s), g, c) ∨
      resolve (fuel + 1) s g c =
        (.error (.circular s.serviceType s.serviceName c.dependencyGraph),
          g, c) := by
  cases hp : g.reg.present s with
  | true => exact Or.inl (resolve_present fuel c hp)
  | false => exact Or.inr (resolve_visited fuel hp hv)

/-! ### Preservation across sequences of public operations -/

theorem runOp_preserves_memo {g : GState} {s : Slot} {v : Val}
    (hv : g.reg.instanceOf s = v) (hp : g.reg.present s = true)
    (fuel : Nat) (op : Op) :
    (runOp fuel g op).reg.instanceOf s = v ∧
      (runOp fuel g op).reg.present s = true ∧
      (runOp fuel g op).invocations.count s = g.invocations.count s := by
  cases op with
  | reg t p =>
    exact ⟨(instanceOf_register g.reg t p s).trans hv,
      (present_register g.reg t p s).trans hp, rfl⟩
  | getO t =>
    have hstep := stepOk_resolve fuel t g {}
    rcases hout : resolve fuel t g {} with ⟨r, g', c'⟩
    rw [hout] at hstep
    have hrun : runOp fuel g (.getO t) = g' := by
      simp [runOp, getTop, hout]
    rw [hrun]
    refine ⟨(hstep.memoFrozen s hp).trans hv, hstep.presentMono s hp, ?_⟩
    obtain ⟨d, hd, _, hm⟩ := hstep.invocs
    have hns : s ∉ d := fun hs => by
      have := (hm s hs).1
      rw [hp] at this
      exact absurd this (by simp)
    rw [hd, List.count_append, List.count_eq_zero.mpr hns, Nat.add_zero]

theorem runOps_preserves_memo {g : GState} {s : Slot} {v : Val}
    (hv : g.reg.instanceOf s = v) (hp : g.reg.present s = true)
    (fuel : Nat) (ops : List Op) :
    (runOps fuel g ops).reg.instanceOf s = v ∧
      (runOps fuel g ops).reg.present s = true ∧
      (runOps fuel g ops).invocations.count s = g.invocations.count s := by
  induction ops generalizing g with
  | nil => exact ⟨hv, hp, rfl⟩
  | cons op ops ih =>
    obtain ⟨h1, h2, h3⟩ := runOp_preserves_memo hv hp fuel op
    obtain ⟨h4, h5, h6⟩ := ih h1 h2
    exact ⟨h4, h5, h6.trans h3⟩

theorem isVisited_empty (s : Slot) : (({} : Ctx)).isVisited s = false := by
  cases s <;> rfl

/-! ### The claims -/

/-- C1: with slot A's factory requesting slot B through its locator handle
and slot B's factory requesting slot A, a top-level `get(A)` on a registry
with no memoized instances returns a `CircularDependencyError` whose
dependency graph is exactly `["ServiceA", "ServiceB:service"]` — visitation
order, A first — as asserted by `TestCircularDependencyDetection`. -/
theorem claim_C1 :
    (getTop 10 .A gPair).1 =
      .error (.circular "ServiceA" "" ["ServiceA", "ServiceB:service"]) := by
  rfl

/-- C7: if an instance is already memoized for a slot (its presence check
passes), resolving that slot returns it immediately with no error and with
the registry state, invocation log, visited-set and dependency graph all
unchanged — for every context, including one in which the slot is already
visited. -/
theorem claim_C7 {fuel : Nat} {s : Slot} {g : GState} (c : Ctx)
    (hp : g.reg.present s = true) :
    resolve (fuel + 1) s g c = (.ok (g.reg.instanceOf s), g, c) :=
  resolve_present fuel c hp

/-- Witness for C7: an instance memoized for `ServiceA` is returned as-is,
even from a context that has already visited `ServiceA`. -/
theorem claim_C7_witness :
    resolve (4 + 1) .A gMemoA
        { dependencyGraph := ["ServiceA"], visitedServiceA := true } =
      (.ok (.mk 7), gMemoA,
        { dependencyGraph := ["ServiceA"], visitedServiceA := true }) :=
  claim_C7 _ rfl

/-- C5: a top-level `get` on a slot with no registered factory and no
memoized instance returns the not-registered error whose message
(`notRegisteredMsg`) names the slot kind, and the name for named slots,
and returns the global state unchanged. -/
theorem claim_C5 {fuel : Nat} {s : Slot} {g : GState}
    (hp : g.reg.present s = false) (hf : g.reg.factoryOf s = none) :
    getTop (fuel + 1) s g = (.error (.strErr (notRegisteredMsg s)), g) := by
  unfold getTop
  rw [resolve_notRegistered fuel hp (isVisited_empty s) hf]

/-- Witness for C5: on an empty registry, `get` for `ServiceB` named
`"service"` fails with the exact message of the generated code and leaves
the state untouched. -/
theorem claim_C5_witness :
    getTop (0 + 1) (.B "service") {} =
      (.error (.strErr "no factory registered for ServiceB with name 'service'"),
        {}) :=
  claim_C5 rfl rfl

/-- C10: resolution marks a slot visited before checking for a factory:
a first lookup of an unregistered slot fails with the not-registered error
and marks the slot, and a second lookup of the same slot in the same
resolution tree then fails with a `CircularDependencyError` instead of a
second not-registered error, both leaving the global state unchanged. -/
theorem claim_C10 {fuel fuel2 : Nat} {s : Slot} {g : GState} {c : Ctx}
    (hp : g.reg.present s = false) (hv : c.isVisited s = false)
    (hf : g.reg.factoryOf s = none) :
    resolve (fuel + 1) s g c =
      (.error (.strErr (notRegisteredMsg s)), g, c.markVisited s) ∧
    resolve (fuel2 + 1) s g (c.markVisited s) =
      (.error (.circular s.serviceType s.serviceName
        (c.markVisited s).dependencyGraph), g, c.markVisited s) :=
  ⟨resolve_notRegistered fuel hp hv hf,
    resolve_visited fuel2 hp (isVisited_markVisited_self c s)⟩

/-- Witness for C10: on an empty registry, the first in-tree lookup of
`ServiceA` is a not-registered failure, the second is a circular-dependency
failure. -/
theorem claim_C10_witness :
    resolve (0 + 1) .A {} {} =
      (.error (.strErr "no factory registered for ServiceA"), {},
        Ctx.markVisited {} .A) ∧
    resolve (0 + 1) .A {} (Ctx.markVisited {} .A) =
      (.error (.circular "ServiceA" ""
        (Ctx.markVisited {} .A).dependencyGraph), {},
        Ctx.markVisited {} .A) :=
  claim_C10 rfl rfl rfl

/-- C9: within one resolution context, each slot's factory is invoked at
most once: a top-level resolution extends the invocation log by a
duplicate-free block of slots, and any resolution attempt at a slot
already visited in its context either returns the memoized instance or
fails with a `CircularDependencyError`, in both cases before reaching the
factory call: the global state, including the invocation log, is returned
untouched. -/
theorem claim_C9 {fuel : Nat} {s : Slot} {g : GState}
    {r : Except GoErr Val} {g' : GState} {c' : Ctx}
    (h : resolve fuel s g {} = (r, g', c')) :
    (∃ d, g'.invocations = g.invocations ++ d ∧ d.Nodup) ∧
      ∀ (fuel2 : Nat) (t : Slot) (g2 : GState) (c2 : Ctx),
        c2.isVisited t = true →
          resolve (fuel2 + 1) t g2 c2 = (.ok (g2.reg.instanceOf t), g2, c2) ∨
          resolve (fuel2 + 1) t g2 c2 =
            (.error (.circular t.serviceType t.serviceName
              c2.dependencyGraph), g2, c2) := by
  constructor
  · have hstep := stepOk_resolve fuel s g {}
    rw [h] at hstep
    obtain ⟨d, hd, hn, _⟩ := hstep.invocs
    exact ⟨d, hd, hn⟩
  · intro fuel2 t g2 c2 hv
    exact resolve_of_isVisited hv

/-- Witness for C9, at the symmetric cycle registry `gPair`. -/
theorem claim_C9_witness :
    (∃ d, (resolve 10 .A gPair {}).2.1.invocations =
        gPair.invocations ++ d ∧ d.Nodup) ∧
      ∀ (fuel2 : Nat) (t : Slot) (g2 : GState) (c2 : Ctx),
        c2.isVisited t = true →
          resolve (fuel2 + 1) t g2 c2 = (.ok (g2.reg.instanceOf t), g2, c2) ∨
          resolve (fuel2 + 1) t g2 c2 =
            (.error (.circular t.serviceType t.serviceName
              c2.dependencyGraph), g2, c2) :=
  claim_C9 rfl

/-- C6: when the invoked factory returns an error, `get` returns that exact
error value unchanged, and the slot remains unresolved: its instance cell
and presence check are exactly as before the call. -/
theorem claim_C6 {fuel : Nat} {s : Slot} {g : GState} {c : Ctx} {p : FProg}
    {e : GoErr} {g2 : GState} {c2 : Ctx}
    (hp : g.reg.present s = false) (hv : c.isVisited s = false)
    (hf : g.reg.factoryOf s = some p)
    (hrun : runFactory (fun t => resolve fuel t) p
      { g with invocations := g.invocations ++ [s] } (c.markVisited s) =
      (.error e, g2, c2)) :
    resolve (fuel + 1) s g c = (.error e, g2, c2) ∧
      g2.reg.instanceOf s = g.reg.instanceOf s ∧
      g2.reg.present s = false := by
  have hstep := stepOk_runFactory (fun t => resolve fuel t)
    (stepOk_resolve fuel) p { g with invocations := g.invocations ++ [s] }
    (c.markVisited s) (fun hn => hn s p hf)
  rw [hrun] at hstep
  have hfr := hstep.visitedFrozen s (isVisited_markVisited_self c s)
  refine ⟨?_, hfr.1, hfr.2.trans hp⟩
  rw [resolve_factory fuel hp hv hf, hrun]

/-- Witness for C6: a `ServiceA` factory failing with a domain error has
the error surface unchanged, and `ServiceA` stays unresolved. -/
theorem claim_C6_witness :
    resolve (0 + 1) .A gFailA {} =
      (.error (.userErr 42), { gFailA with invocations := [Slot.A] },
        Ctx.markVisited {} .A) ∧
    ({ gFailA with invocations := [Slot.A] } : GState).reg.instanceOf .A =
      gFailA.reg.instanceOf .A ∧
    ({ gFailA with invocations := [Slot.A] } : GState).reg.present .A =
      false :=
  claim_C6 rfl rfl rfl rfl

/-- Counterexample to C2 as stated: `ServiceA`'s factory succeeds with a
nil instance; the first top-level `get` succeeds, and the second top-level
`get` also succeeds with the identical (nil) instance but invokes the
registered factory again — the invocation log holds two `ServiceA` entries,
so the factory does not run at most once per slot across sequential calls. -/
theorem claim_C2_counterexample :
    (getTop 2 .A gNilA).1 = .ok Val.nil ∧
    (getTop 2 .A gNilA).2.invocations = [Slot.A] ∧
    (getTop 2 .A (getTop 2 .A gNilA).2).1 = .ok Val.nil ∧
    (getTop 2 .A (getTop 2 .A gNilA).2).2.invocations = [Slot.A, Slot.A] :=
  ⟨rfl, rfl, rfl, rfl⟩

/-- C2 (amended): if a top-level `get` succeeds with an instance that
passes the slot's presence check once stored (any instance for named
slots; a non-nil instance for unnamed slots — the nil case is the
counterexample), then a second top-level `get` returns the identical
instance with the state, including the invocation log, unchanged, and no
later sequence of register/get operations ever runs that slot's factory
again. -/
theorem claim_C2_amended {fuel fuel2 : Nat} {s : Slot} {g : GState}
    {v : Val} {g' : GState}
    (h : getTop (fuel + 1) s g = (.ok v, g'))
    (hm : memoizable s v = true) :
    getTop (fuel2 + 1) s g' = (.ok v, g') ∧
      ∀ (fuel3 : Nat) (ops : List Op),
        (runOps fuel3 g' ops).invocations.count s =
          g'.invocations.count s := by
  rcases hout : resolve (fuel + 1) s g {} with ⟨r, g1, c1⟩
  unfold getTop at h
  rw [hout] at h
  simp only [Prod.mk.injEq] at h
  obtain ⟨h1, h2⟩ := h
  subst h1 h2
  obtain ⟨hv', hp'⟩ := resolve_ok_stores hout
  rw [hm] at hp'
  constructor
  · unfold getTop
    rw [resolve_present fuel2 {} hp', hv']
  · intro fuel3 ops
    exact (runOps_preserves_memo hv' hp' fuel3 ops).2.2

/-- Witness for the amended C2: a fresh instance constructed for
`ServiceA` is returned identically by the second `get`, with the factory
never running again. -/
theorem claim_C2_amended_witness :
    getTop (0 + 1) .A (getTop (1 + 1) .A gFreshA).2 =
      (.ok (.mk 0), (getTop (1 + 1) .A gFreshA).2) ∧
    ∀ (fuel3 : Nat) (ops : List Op),
      (runOps fuel3 (getTop (1 + 1) .A gFreshA).2 ops).invocations.count .A =
        (getTop (1 + 1) .A gFreshA).2.invocations.count .A :=
  @claim_C2_amended 1 0 .A gFreshA (.mk 0) _ rfl rfl

/-- Counterexample to C4 as stated: after `ServiceA`'s factory succeeds
with nil, the success path stores that nil instance; yet re-registering a
factory and getting again re-runs a factory (two log entries) and
overwrites the stored instance with a different, non-nil one — the stored
instance was not permanent and later gets did not return it. -/
theorem claim_C4_counterexample :
    (getTop 2 .A gNilA).1 = .ok Val.nil ∧
    (runOps 2 (getTop 2 .A gNilA).2
      [.reg .A .retFresh, .getO .A]).reg.instanceOf .A = .mk 0 ∧
    (runOps 2 (getTop 2 .A gNilA).2
      [.reg .A .retFresh, .getO .A]).invocations = [Slot.A, Slot.A] :=
  ⟨rfl, rfl, rfl⟩

/-- C4 (amended): once the registry holds an instance that passes the
slot's presence check (a non-nil instance for unnamed slots; any map entry
for named slots — the nil case is the counterexample), no sequence of
register and get operations overwrites or removes it, that slot's factory
never runs during the sequence, and every later top-level `get` returns
the stored instance with the state unchanged. -/
theorem claim_C4_amended {g : GState} {s : Slot} {v : Val}
    (hv : g.reg.instanceOf s = v) (hp : g.reg.present s = true)
    (fuel : Nat) (ops : List Op) :
    (runOps fuel g ops).reg.instanceOf s = v ∧
      (runOps fuel g ops).reg.present s = true ∧
      (runOps fuel g ops).invocations.count s = g.invocations.count s ∧
      ∀ fuel2, getTop (fuel2 + 1) s (runOps fuel g ops) =
        (.ok v, runOps fuel g ops) := by
  obtain ⟨h1, h2, h3⟩ := runOps_preserves_memo hv hp fuel ops
  refine ⟨h1, h2, h3, fun fuel2 => ?_⟩
  unfold getTop
  rw [resolve_present fuel2 {} h2, h1]

/-- Witness for the amended C4: an instance memoized for `ServiceA`
survives a re-registration followed by a get, and is still what `get`
returns. -/
theorem claim_C4_amended_witness :
    (runOps 3 gMemoA [.reg .A .retFresh, .getO .A]).reg.instanceOf .A =
      .mk 7 ∧
    (runOps 3 gMemoA [.reg .A .retFresh, .getO .A]).reg.present .A = true ∧
    (runOps 3 gMemoA [.reg .A .retFresh, .getO .A]).invocations.count .A =
      gMemoA.invocations.count .A ∧
    ∀ fuel2, getTop (fuel2 + 1) .A
        (runOps 3 gMemoA [.reg .A .retFresh, .getO .A]) =
      (.ok (.mk 7), runOps 3 gMemoA [.reg .A .retFresh, .getO .A]) :=
  claim_C4_amended (g := gMemoA) (s := .A) (v := .mk 7) rfl rfl 3
    [.reg .A .retFresh, .getO .A]

/-- C8: for an unnamed slot whose factory succeeds with a nil instance,
the nil value is stored but the presence check (`instance != nil`) still
fails, the slot is not memoized, and every subsequent `get` for it reaches
the factory again — the invocation log gains a fresh entry for the slot —
instead of short-circuiting. -/
theorem claim_C8 {fuel : Nat} {s : Slot} {g : GState} {p : FProg}
    {g' : GState} {c' : Ctx}
    (hu : s = .A ∨ s = .C) (hf : g.reg.factoryOf s = some p)
    (h : resolve (fuel + 1) s g {} = (.ok Val.nil, g', c')) :
    g'.reg.instanceOf s = .nil ∧ g'.reg.present s = false ∧
      g'.reg.factoryOf s = some p ∧
      ∀ fuel2, ∃ d,
        (resolve (fuel2 + 1) s g' {}).2.1.invocations =
          g'.invocations ++ s :: d := by
  obtain ⟨h1, h2⟩ := resolve_ok_stores h
  have hmem : memoizable s Val.nil = false := by rcases hu with rfl | rfl <;> rfl
  rw [hmem] at h2
  have hstep := stepOk_resolve (fuel + 1) s g {}
  rw [h] at hstep
  have hf' : g'.reg.factoryOf s = some p := (hstep.factories s).trans hf
  refine ⟨h1, h2, hf', fun fuel2 => ?_⟩
  rw [resolve_factory fuel2 h2 (isVisited_empty s) hf']
  rcases hout : runFactory (fun t => resolve fuel2 t) p
    { g' with invocations := g'.invocations ++ [s] }
    (Ctx.markVisited {} s) with ⟨rF, g2, c2⟩
  have hstep2 := stepOk_runFactory (fun t => resolve fuel2 t)
    (stepOk_resolve fuel2) p
    { g' with invocations := g'.invocations ++ [s] }
    (Ctx.markVisited {} s) (fun hn => hn s p hf')
  rw [hout] at hstep2
  obtain ⟨d, hd, _, _⟩ := hstep2.invocs
  cases rF with
  | error e => exact ⟨d, by rw [hd, List.append_assoc]; rfl⟩
  | ok v => exact ⟨d, by rw [hd, List.append_assoc]; rfl⟩

/-- Witness for C8, at the registry whose `ServiceA` factory returns nil. -/
theorem claim_C8_witness :
    (resolve (0 + 1) .A gNilA {}).2.1.reg.instanceOf .A = Val.nil ∧
    (resolve (0 + 1) .A gNilA {}).2.1.reg.present .A = false ∧
    (resolve (0 + 1) .A gNilA {}).2.1.reg.factoryOf .A =
      some (.ret Val.nil) ∧
    ∀ fuel2, ∃ d,
      (resolve (fuel2 + 1) .A
        (resolve (0 + 1) .A gNilA {}).2.1 {}).2.1.invocations =
        (resolve (0 + 1) .A gNilA {}).2.1.invocations ++ .A :: d :=
  @claim_C8 0 .A gNilA (.ret Val.nil) _ _ (Or.inl rfl) rfl rfl

/-- Every factory of `gBranch` raises no fabricated circular error. -/
theorem gBranch_noFab : gBranch.reg.NoFab := by
  intro u p hp
  cases u with
  | A =>
    simp only [gBranch, Registry.factoryOf, Option.some.injEq] at hp
    subst hp
    intro v
    trivial
  | C =>
    simp only [gBranch, Registry.factoryOf, Option.some.injEq] at hp
    subst hp
    trivial
  | B nm =>
    simp only [gBranch, Registry.factoryOf, List.lookup_cons] at hp
    cases hbeq : nm == "service" with
    | false => rw [hbeq] at hp; simp at hp
    | true =>
      rw [hbeq] at hp
      simp only [Option.some.injEq] at hp
      subst hp
      intro v
      intro v'
      trivial

/-- Counterexample to C3 as stated: in the branching registry `gBranch`,
the re-visit of `ServiceA` is triggered from inside the factory of
`ServiceB:"service"`, yet the returned path ends with `"ServiceC"` — the
most recently visited slot, a sibling dependency that had already resolved
successfully — not with the slot that triggered the re-visit (nor with the
re-visited slot itself). -/
theorem claim_C3_counterexample :
    (getTop 10 .A gBranch).1 =
      .error (.circular "ServiceA" ""
        ["ServiceA", "ServiceB:service", "ServiceC"]) ∧
    (["ServiceA", "ServiceB:service", "ServiceC"] : List String).getLast? =
      some "ServiceC" ∧
    "ServiceC" ≠ "ServiceB:service" ∧ "ServiceC" ≠ "ServiceA" :=
  ⟨rfl, rfl, by decide, by decide⟩

/-- C3 (amended): every `CircularDependencyError` produced by a top-level
resolution (of a registry whose factories do not fabricate circular errors
of their own) carries a path that begins with the first slot entered for
that external call and is an initial segment of the context's final
dependency graph — the verbatim visitation-order record: it ends with the
slot most recently visited when the cycle was detected, which need not be
the slot whose factory triggered the re-visit. -/
theorem claim_C3_amended {fuel : Nat} {s : Slot} {g : GState}
    {t n : String} {path : List String} {g' : GState} {c' : Ctx}
    (hnf : g.reg.NoFab)
    (h : resolve (fuel + 1) s g {} = (.error (.circular t n path), g', c')) :
    path.head? = some s.label ∧ path <+: c'.dependencyGraph := by
  cases hp : g.reg.present s with
  | true =>
    rw [resolve_present fuel {} hp] at h
    simp at h
  | false =>
    cases hf : g.reg.factoryOf s with
    | none =>
      rw [resolve_notRegistered fuel hp (isVisited_empty s) hf] at h
      simp only [Prod.mk.injEq] at h
      obtain ⟨h1, -, -⟩ := h
      injection h1 with h2
      simp at h2
    | some p =>
      rw [resolve_factory fuel hp (isVisited_empty s) hf] at h
      rcases hout : runFactory (fun u => resolve fuel u) p
        { g with invocations := g.invocations ++ [s] }
        (Ctx.markVisited {} s) with ⟨rF, g2, c2⟩
      rw [hout] at h
      have hstep := stepOk_runFactory (fun u => resolve fuel u)
        (stepOk_resolve fuel) p
        { g with invocations := g.invocations ++ [s] }
        (Ctx.markVisited {} s) (fun hn => hn s p hf)
      rw [hout] at hstep
      cases rF with
      | ok v => simp at h
      | error e =>
        simp only [Prod.mk.injEq] at h
        obtain ⟨h1, h2, h3⟩ := h
        injection h1 with h1e
        subst h1e h2 h3
        obtain ⟨hlow, hhigh⟩ := hstep.circOk hnf t n path rfl
        rw [dependencyGraph_markVisited] at hlow
        obtain ⟨tl, htl⟩ := hlow
        refine ⟨?_, hhigh⟩
        rw [← htl]
        rfl

/-- Witness for the amended C3, at the branching registry `gBranch`. -/
theorem claim_C3_amended_witness :
    (["ServiceA", "ServiceB:service", "ServiceC"] : List String).head? =
      some (Slot.label .A) ∧
    (["ServiceA", "ServiceB:service", "ServiceC"] : List String) <+:
      (resolve (9 + 1) .A gBranch {}).2.2.dependencyGraph :=
  @claim_C3_amended 9 .A gBranch _ _ _ _ _ gBranch_noFab rfl

end SvcLoc
